import Mathlib

/-!
Shallow embedding of the GrayShop utility-bill ledger (src/app/services.py,
src/app/models.py, src/main.py) and verification of its specification claims.

Dates are modelled as records of integer year/month/day; Python stores are
modelled as lists of rows; the transactional session becomes explicit state
passing, with `Except` for handler paths that reject input before mutating.
-/

namespace GrayShop

/-- Calendar date, mirroring Python `datetime.date` values (year, month, day). -/
structure Date where
  year : Int
  month : Int
  day : Int
  deriving DecidableEq, Repr

/-- Row of `utility_types` (models.py: UtilityType). -/
structure UtilityType where
  id : Nat
  code : String
  name_hr : String
  is_active : Bool
  deriving DecidableEq, Repr

/-- Row of `utility_bills` (models.py: UtilityBill). Amounts are in cents. -/
structure UtilityBill where
  id : Nat
  apartment_id : Option Nat
  utility_type : String
  consumption_month : Date
  received_date : Date
  amount : Int
  billing_month : Date
  is_paid : Bool
  paid_date : Option Date
  note : Option String
  created_at : Nat
  deriving DecidableEq, Repr

/-- Row of `billing_months` (models.py: BillingMonth); timestamps are abstract. -/
structure BillingMonth where
  billing_month : Date
  is_closed : Bool
  closed_at : Option Nat
  deriving DecidableEq, Repr

/-- Row of `apartments` (models.py: Apartment). -/
structure Apartment where
  id : Nat
  name : String
  is_active : Bool
  deriving DecidableEq, Repr

/-- The singleton `settings` row (models.py: Setting). -/
structure Setting where
  rent_amount : Int
  billing_day : Int
  active_year : Int
  deriving DecidableEq, Repr

/-- The whole relational store, one field per table plus the autoincrement
counter for bill ids. -/
structure Store where
  bills : List UtilityBill
  months : List BillingMonth
  apartments : List Apartment
  utility_types : List UtilityType
  settings : Setting
  nextBillId : Nat
  deriving DecidableEq, Repr

/-- services.py `first_of_month`: truncate to day 1. -/
def first_of_month (value : Date) : Date :=
  { value with day := 1 }

/-- services.py `next_month`. -/
def next_month (value : Date) : Date :=
  if value.month = 12 then ⟨value.year + 1, 1, 1⟩
  else ⟨value.year, value.month + 1, 1⟩

/-- services.py `prev_month`. -/
def prev_month (value : Date) : Date :=
  if value.month = 1 then ⟨value.year - 1, 12, 1⟩
  else ⟨value.year, value.month - 1, 1⟩

/-- services.py `compute_billing_month`. -/
def compute_billing_month (received_date : Date) (billing_day : Int) : Date :=
  let month := first_of_month received_date
  if received_date.day ≤ billing_day then month
  else next_month month

/-- services.py `current_billing_month`. -/
def current_billing_month (today : Date) (billing_day : Int) : Date :=
  let month := first_of_month today
  if today.day ≤ billing_day then month
  else next_month month

/-- services.py `validate_month_first`. -/
def validate_month_first (value : Date) : Bool :=
  value.day == 1

/-- Python date comparison: lexicographic order on (year, month, day). -/
def dateLe (a b : Date) : Bool :=
  decide (a.year < b.year ∨ (a.year = b.year ∧
    (a.month < b.month ∨ (a.month = b.month ∧ a.day ≤ b.day))))

/-- Point lookup of a billing-month record by primary key, as
`session.get(BillingMonth, month)`. -/
def findMonth (months : List BillingMonth) (m : Date) : Option BillingMonth :=
  months.find? (fun r => decide (r.billing_month = m))

/-- Boolean form of the closed-month test the handlers use:
`status and status.is_closed`. -/
def monthIsClosed (months : List BillingMonth) (m : Date) : Bool :=
  match findMonth months m with
  | some r => r.is_closed
  | none => false

/-- Membership test for a billing-month key in the table. -/
def containsMonth (months : List BillingMonth) (m : Date) : Bool :=
  months.any (fun r => decide (r.billing_month = m))

/-- services.py `ensure_billing_month`: create the status row lazily
(`is_closed = False`) when the key is absent. -/
def ensure_billing_month (months : List BillingMonth) (m : Date) : List BillingMonth :=
  if containsMonth months m then months else months ++ [⟨m, false, none⟩]

/-- Row update performed by `close_billing_month` on the status record with
key `m`: set `is_closed = True` and stamp `closed_at`. -/
def closeMonthRow (m : Date) (now : Nat) (r : BillingMonth) : BillingMonth :=
  if r.billing_month = m then { r with is_closed := true, closed_at := some now } else r

/-- Row update performed by `close_billing_month` on each bill whose
`billing_month` equals `m`: mark paid and stamp today's date. -/
def closeBillRow (m today : Date) (b : UtilityBill) : UtilityBill :=
  if b.billing_month = m then { b with is_paid := true, paid_date := some today } else b

/-- services.py `close_billing_month`; `today` models `date.today()` and
`now` models `datetime.utcnow()`. -/
def close_billing_month (st : Store) (m : Date) (today : Date) (now : Nat) : Store :=
  { st with
    months := (ensure_billing_month st.months m).map (closeMonthRow m now)
    bills := st.bills.map (closeBillRow m today) }

/-- Row update performed by `reopen_billing_month` on the status record:
set `is_closed = False` and clear `closed_at`. -/
def reopenMonthRow (m : Date) (r : BillingMonth) : BillingMonth :=
  if r.billing_month = m then { r with is_closed := false, closed_at := none } else r

/-- Row update performed by `reopen_billing_month` on each bill in month `m`:
mark unpaid and clear the paid date. -/
def reopenBillRow (m : Date) (b : UtilityBill) : UtilityBill :=
  if b.billing_month = m then { b with is_paid := false, paid_date := none } else b

/-- services.py `reopen_billing_month`. -/
def reopen_billing_month (st : Store) (m : Date) : Store :=
  { st with
    months := (ensure_billing_month st.months m).map (reopenMonthRow m)
    bills := st.bills.map (reopenBillRow m) }

/-- Point lookup of a bill by primary key, as `session.get(UtilityBill, id)`. -/
def findBill (bills : List UtilityBill) (i : Nat) : Option UtilityBill :=
  bills.find? (fun b => decide (b.id = i))

/-- Default global settings used by the concrete test stores. -/
def defaultSettings : Setting :=
  { rent_amount := 0, billing_day := 10, active_year := 2024 }

/-- Concrete bill used for the C2 scenario: it sits in billing month
2024-05-01 and was already paid (on 2024-04-25) before any close. -/
def billPrepaid : UtilityBill :=
  { id := 1, apartment_id := none, utility_type := "water"
    consumption_month := ⟨2024, 4, 1⟩, received_date := ⟨2024, 4, 20⟩
    amount := 1000, billing_month := ⟨2024, 5, 1⟩
    is_paid := true, paid_date := some ⟨2024, 4, 25⟩
    note := none, created_at := 0 }

/-- Concrete store for the C2 counterexample: one already-paid bill in month
2024-05-01 and no status records. -/
def storePrepaid : Store :=
  { bills := [billPrepaid], months := [], apartments := []
    utility_types := [], settings := defaultSettings, nextBillId := 2 }

/-- Concrete bill inside billing month 2024-05-01, unpaid. -/
def billInMay : UtilityBill :=
  { id := 1, apartment_id := none, utility_type := "water"
    consumption_month := ⟨2024, 4, 1⟩, received_date := ⟨2024, 4, 20⟩
    amount := 1000, billing_month := ⟨2024, 5, 1⟩
    is_paid := false, paid_date := none, note := none, created_at := 0 }

/-- Concrete bill outside billing month 2024-05-01 (in 2024-06-01), unpaid. -/
def billInJune : UtilityBill :=
  { id := 2, apartment_id := none, utility_type := "gas"
    consumption_month := ⟨2024, 5, 1⟩, received_date := ⟨2024, 5, 15⟩
    amount := 2000, billing_month := ⟨2024, 6, 1⟩
    is_paid := false, paid_date := none, note := none, created_at := 0 }

/-- Concrete store with one bill in month 2024-05-01 and one outside it. -/
def storeTwoBills : Store :=
  { bills := [billInMay, billInJune], months := [], apartments := []
    utility_types := [], settings := defaultSettings, nextBillId := 3 }

/-- Success test for a handler result; `Except.error` models a rejected
request (HTTP 400/404 path) in which the session is never committed. -/
def exceptOk {ε α : Type} : Except ε α → Bool
  | .ok _ => true
  | .error _ => false

/-- Store reached after a handler runs: the new store on success, the
original store on rejection (nothing was committed). -/
def applyResult (st : Store) : Except String Store → Store
  | .ok s => s
  | .error _ => st

/-- Codes of the active utility types, as queried at the top of bill_save. -/
def activeCodes (st : Store) : List String :=
  (st.utility_types.filter (·.is_active)).map (·.code)

/-- Field assignments main.py bill_save performs on the saved bill row. -/
def saveBillRow (utility_type : String) (consumption received : Date) (amount : Int)
    (billing_month : Date) (note : Option String) (b : UtilityBill) : UtilityBill :=
  { b with
    utility_type := utility_type
    consumption_month := consumption
    received_date := received
    amount := amount
    billing_month := billing_month
    note := note
    is_paid := false
    paid_date := none }

/-- Editing arm of main.py bill_save (`if bill_id:`): look the bill up,
reject if its current month is closed or if it would move into a closed
month, otherwise overwrite its fields. -/
def bill_save_edit (st : Store) (utility_type : String) (consumption received : Date)
    (amount : Int) (note : Option String) (i : Nat) : Except String Store :=
  match findBill st.bills i with
  | none => .error "Račun nije pronađen."
  | some b =>
    if monthIsClosed st.months b.billing_month then
      .error "Račun iz zatvorenog mjeseca nije moguće mijenjati."
    else if monthIsClosed st.months (compute_billing_month received st.settings.billing_day)
        ∧ b.billing_month ≠ compute_billing_month received st.settings.billing_day then
      .error "Ciljani obračunski mjesec je zatvoren."
    else
      .ok { st with bills := st.bills.map (fun x =>
        if x.id = i then
          saveBillRow utility_type consumption received amount
            (compute_billing_month received st.settings.billing_day) note x
        else x) }

/-- Fresh row inserted by the creation arm of main.py bill_save. -/
def newBillRow (st : Store) (now : Nat) (utility_type : String)
    (consumption received : Date) (amount : Int) (note : Option String) : UtilityBill :=
  { id := st.nextBillId, apartment_id := none, utility_type := utility_type,
    consumption_month := consumption, received_date := received, amount := amount,
    billing_month := compute_billing_month received st.settings.billing_day,
    is_paid := false, paid_date := none, note := note, created_at := now }

/-- Creation arm of main.py bill_save (`else:` branch): append a fresh bill
row under the next autoincrement id. -/
def bill_save_create (st : Store) (now : Nat) (utility_type : String)
    (consumption received : Date) (amount : Int) (note : Option String) :
    Except String Store :=
  .ok { st with
    bills := st.bills ++ [newBillRow st now utility_type consumption received amount note],
    nextBillId := st.nextBillId + 1 }

/-- main.py bill_save (POST /bills/save), modelled from validation onward:
the HTTP layer's string parsing is done, so consumption/received arrive as
dates and the amount in cents. `today` models `date.today()` for the
future-received check and `now` models `datetime.utcnow()` for created_at. -/
def bill_save (st : Store) (today : Date) (now : Nat) (bill_id : Option Nat)
    (utility_type : String) (consumption received : Date) (amount : Int)
    (note : Option String) : Except String Store :=
  if utility_type ∉ activeCodes st then
    .error "Odabrani tip režije nije valjan ili više nije aktivan."
  else if ¬ validate_month_first consumption then
    .error "Mjesec potrošnje mora biti prvi dan mjeseca."
  else if ¬ dateLe received today then
    .error "Datum primitka ne smije biti u budućnosti."
  else if amount ≤ 0 then
    .error "Iznos mora biti pozitivan."
  else if monthIsClosed st.months (compute_billing_month received st.settings.billing_day)
      ∧ bill_id = none then
    .error "Obračunski mjesec je zatvoren. Prvo ga ponovno otvorite."
  else
    match bill_id with
    | some i => bill_save_edit st utility_type consumption received amount note i
    | none => bill_save_create st now utility_type consumption received amount note

/-- main.py bill_delete (POST /bills/{id}/delete). -/
def bill_delete (st : Store) (bill_id : Nat) : Except String Store :=
  match findBill st.bills bill_id with
  | none => .error "Račun nije pronađen."
  | some b =>
    if monthIsClosed st.months b.billing_month then
      .error "Račun iz zatvorenog mjeseca nije moguće obrisati."
    else
      .ok { st with bills := st.bills.filter (fun x => decide (¬ x.id = bill_id)) }

/-- main.py apartment_deactivate (POST /settings/apartment/{id}/deactivate). -/
def apartment_deactivate (st : Store) (apartment_id : Nat) : Except String Store :=
  match st.apartments.find? (fun a => decide (a.id = apartment_id)) with
  | none => .error "Stan nije pronađen."
  | some a =>
    if a.is_active ∧ (st.apartments.filter (·.is_active)).length ≤ 1 then
      .error "Mora postojati barem jedan aktivan stan."
    else
      .ok { st with apartments := st.apartments.map (fun x =>
        if x.id = apartment_id then { x with is_active := false } else x) }

/-- Primary key of the row a successful bill_save writes: the edited id, or
the fresh autoincrement id for a creation. -/
def savedId (st : Store) : Option Nat → Nat
  | some i => i
  | none => st.nextBillId

/-- Autoincrement well-formedness: every stored bill id is below the
counter, as SQLite's rowid allocation guarantees. -/
def billIdsFresh (st : Store) : Prop :=
  ∀ b ∈ st.bills, b.id < st.nextBillId

/-- Concrete store whose month 2024-05-01 is closed and holds billInMay. -/
def storeClosedMay : Store :=
  { bills := [billInMay], months := [⟨⟨2024, 5, 1⟩, true, some 3⟩]
    apartments := [], utility_types := [⟨1, "water", "Voda", true⟩]
    settings := defaultSettings, nextBillId := 3 }

/-- Concrete store with one active and one inactive apartment. -/
def storeOneActive : Store :=
  { bills := [], months := [], apartments := [⟨1, "A", true⟩, ⟨2, "B", false⟩]
    utility_types := [], settings := defaultSettings, nextBillId := 1 }

/-- Concrete store with two active apartments. -/
def storeTwoActive : Store :=
  { bills := [], months := [], apartments := [⟨1, "A", true⟩, ⟨2, "B", true⟩]
    utility_types := [], settings := defaultSettings, nextBillId := 1 }

/-- Concrete empty store with one active utility type, for a successful
bill_save run. -/
def storeOpenJune : Store :=
  { bills := [], months := [], apartments := []
    utility_types := [⟨1, "electricity", "Struja", true⟩]
    settings := defaultSettings, nextBillId := 1 }

/-- services.py `ExpectedRow` dataclass. -/
structure ExpectedRow where
  utility_type : String
  utility_name : String
  consumption_month : Date
  received : Bool
  first_received_date : Option Date
  charged : Bool
  deriving DecidableEq, Repr

/-- SQL MIN over a list of dates: the least element, none when empty. -/
def minDate? : List Date → Option Date
  | [] => none
  | d :: ds =>
    match minDate? ds with
    | none => some d
    | some m => if dateLe d m then some d else some m

/-- Bills matching one (utility code, consumption month) cell of the
expected-bill report - the WHERE clause of the aggregate query. -/
def matchingBills (st : Store) (code : String) (cm : Date) : List UtilityBill :=
  st.bills.filter (fun b => decide (b.utility_type = code) && decide (b.consumption_month = cm))

/-- One row of the expected-bill report: COUNT gives `received`, MIN gives
`first_received_date`, SUM of the paid case gives `charged`. -/
def expectedRowFor (st : Store) (u : UtilityType) (year : Int) (month : Nat) : ExpectedRow :=
  { utility_type := u.code
    utility_name := u.name_hr
    consumption_month := ⟨year, (month : Int), 1⟩
    received := decide ((matchingBills st u.code ⟨year, (month : Int), 1⟩).length ≠ 0)
    first_received_date :=
      minDate? ((matchingBills st u.code ⟨year, (month : Int), 1⟩).map (·.received_date))
    charged := decide
      ((matchingBills st u.code ⟨year, (month : Int), 1⟩).countP (·.is_paid) ≠ 0) }

/-- services.py `expected_rows`: for every active utility type (ordered by
name) and every calendar month 1..12 of the year, one aggregate row. -/
def expected_rows (st : Store) (year : Int) : List ExpectedRow :=
  (List.insertionSort (fun a b : UtilityType => a.name_hr ≤ b.name_hr)
      (st.utility_types.filter (·.is_active))).flatMap
    (fun u => (List.range 12).map (fun j => expectedRowFor st u year (j + 1)))

/-- Concrete electricity bill with consumption month 2024-06-01. -/
def billJuneConsumption : UtilityBill :=
  { id := 1, apartment_id := none, utility_type := "electricity"
    consumption_month := ⟨2024, 6, 1⟩, received_date := ⟨2024, 6, 5⟩, amount := 100
    billing_month := ⟨2024, 6, 1⟩, is_paid := false, paid_date := none, note := none
    created_at := 0 }

/-- Concrete store for the spec's expected-rows example: one active utility
type and a single bill with consumption month 2024-06-01. -/
def storeJuneBill : Store :=
  { bills := [billJuneConsumption], months := [], apartments := []
    utility_types := [⟨1, "electricity", "Struja", true⟩]
    settings := defaultSettings, nextBillId := 2 }

/-- C1: for every date d and cutoff c in 1..28, compute_billing_month d c is
first_of_month d when d.day ≤ c and next_month (first_of_month d) otherwise;
in particular it maps (2024-03-10, 10) to 2024-03-01 and (2024-03-11, 10) to
2024-04-01. -/
theorem C1_compute_billing_month_rule :
    (∀ (d : Date) (c : Int), 1 ≤ c → c ≤ 28 →
      compute_billing_month d c =
        if d.day ≤ c then first_of_month d else next_month (first_of_month d))
    ∧ compute_billing_month ⟨2024, 3, 10⟩ 10 = ⟨2024, 3, 1⟩
    ∧ compute_billing_month ⟨2024, 3, 11⟩ 10 = ⟨2024, 4, 1⟩ :=
  ⟨fun _ _ _ _ => rfl, by decide, by decide⟩

/-- Witness for C1 at d = 2024-03-10, c = 10. -/
theorem C1_compute_billing_month_rule_witness :
    compute_billing_month ⟨2024, 3, 10⟩ 10 =
      if (⟨2024, 3, 10⟩ : Date).day ≤ 10 then first_of_month ⟨2024, 3, 10⟩
      else next_month (first_of_month ⟨2024, 3, 10⟩) :=
  C1_compute_billing_month_rule.1 ⟨2024, 3, 10⟩ 10 (by decide) (by decide)

/-- C6: next_month and prev_month are mutually inverse on first-of-month
dates, including across year boundaries, and prev_month 2024-01-01 is
2023-12-01. -/
theorem C6_month_roundtrip :
    (∀ m : Date, 1 ≤ m.month → m.month ≤ 12 → m.day = 1 →
      next_month (prev_month m) = m ∧ prev_month (next_month m) = m)
    ∧ prev_month ⟨2024, 1, 1⟩ = ⟨2023, 12, 1⟩ := by
  refine ⟨?_, by decide⟩
  rintro ⟨y, mo, d⟩ h1 h2 hd
  simp only at h1 h2 hd
  subst hd
  constructor <;>
    · simp only [prev_month, next_month]
      split_ifs <;>
        first
          | omega
          | (simp_all
             omega)
          | simp_all

/-- Witness for C6 at m = 2024-01-01. -/
theorem C6_month_roundtrip_witness :
    next_month (prev_month ⟨2024, 1, 1⟩) = (⟨2024, 1, 1⟩ : Date)
    ∧ prev_month (next_month ⟨2024, 1, 1⟩) = (⟨2024, 1, 1⟩ : Date) :=
  C6_month_roundtrip.1 ⟨2024, 1, 1⟩ (by decide) (by decide) (by decide)

/-- C10: current_billing_month and compute_billing_month implement the same
rule at every date and cutoff. -/
theorem C10_current_eq_compute :
    ∀ (today : Date) (billing_day : Int),
      current_billing_month today billing_day = compute_billing_month today billing_day :=
  fun _ _ => rfl

/-- closeMonthRow preserves the primary key. -/
theorem closeMonthRow_billing (m : Date) (now : Nat) (r : BillingMonth) :
    (closeMonthRow m now r).billing_month = r.billing_month := by
  unfold closeMonthRow
  split <;> rfl

/-- reopenMonthRow preserves the primary key. -/
theorem reopenMonthRow_billing (m : Date) (r : BillingMonth) :
    (reopenMonthRow m r).billing_month = r.billing_month := by
  unfold reopenMonthRow
  split <;> rfl

/-- Mapping a key-preserving row update does not change which keys the
months table contains. -/
theorem containsMonth_map (g : BillingMonth → BillingMonth)
    (hg : ∀ r, (g r).billing_month = r.billing_month)
    (l : List BillingMonth) (m : Date) :
    containsMonth (l.map g) m = containsMonth l m := by
  unfold containsMonth
  rw [List.any_map]
  congr 1
  funext r
  simp [Function.comp, hg]

/-- Ensuring a key that is already present leaves the table unchanged. -/
theorem ensure_billing_month_of_contains (l : List BillingMonth) (m : Date)
    (h : containsMonth l m = true) : ensure_billing_month l m = l := by
  unfold ensure_billing_month
  simp [h]

/-- The ensured months table contains the ensured key. -/
theorem containsMonth_ensure (l : List BillingMonth) (m : Date) :
    containsMonth (ensure_billing_month l m) m = true := by
  unfold ensure_billing_month
  split
  · assumption
  · simp [containsMonth, List.any_append]

/-- Looking up key `m` after mapping a row update that rewrites every row
with key `m` to the fixed record `⟨m, fl, ts⟩` (and preserves all keys)
finds exactly that record, provided the key is present. -/
theorem findMonth_map_update (g : BillingMonth → BillingMonth) (m : Date)
    (fl : Bool) (ts : Option Nat)
    (hg1 : ∀ r : BillingMonth, r.billing_month = m → g r = ⟨m, fl, ts⟩)
    (hg2 : ∀ r, (g r).billing_month = r.billing_month) :
    ∀ l : List BillingMonth, containsMonth l m = true →
      findMonth (l.map g) m = some ⟨m, fl, ts⟩ := by
  intro l
  induction l with
  | nil => simp [containsMonth]
  | cons r t ih =>
    intro h
    by_cases hr : r.billing_month = m
    · simp only [List.map_cons, findMonth, List.find?_cons]
      rw [hg1 r hr]
      simp
    · have hcont : containsMonth t m = true := by
        simpa [containsMonth, hr] using h
      simp only [List.map_cons, findMonth, List.find?_cons]
      have hne : decide ((g r).billing_month = m) = false := by
        simp [hg2 r, hr]
      rw [hne]
      exact ih hcont

/-- C3: close(m) leaves the status record for m present, closed and stamped
with the closing timestamp (creating it if absent), marks every bill whose
billing month is m as paid with today's date, leaves bills of other months
unchanged, and deletes or creates no bill. -/
theorem C3_close_spec :
    ∀ (st : Store) (m today : Date) (now : Nat),
      findMonth (close_billing_month st m today now).months m = some ⟨m, true, some now⟩
      ∧ (∀ b ∈ st.bills, b.billing_month = m →
          { b with is_paid := true, paid_date := some today }
            ∈ (close_billing_month st m today now).bills)
      ∧ (∀ b ∈ st.bills, b.billing_month ≠ m →
          b ∈ (close_billing_month st m today now).bills)
      ∧ (close_billing_month st m today now).bills.length = st.bills.length := by
  intro st m today now
  refine ⟨?_, ?_, ?_, ?_⟩
  · exact findMonth_map_update (closeMonthRow m now) m true (some now)
      (fun r hr => by simp [closeMonthRow, hr])
      (closeMonthRow_billing m now)
      (ensure_billing_month st.months m) (containsMonth_ensure st.months m)
  · intro b hb hbm
    have : closeBillRow m today b = { b with is_paid := true, paid_date := some today } := by
      simp [closeBillRow, hbm]
    rw [← this]
    exact List.mem_map_of_mem _ hb
  · intro b hb hbm
    have : closeBillRow m today b = b := by
      simp [closeBillRow, hbm]
    rw [← this]
    exact List.mem_map_of_mem _ hb
  · simp [close_billing_month]

/-- Witness for C3 on a concrete store with one bill inside month 2024-05-01
and one outside it. -/
theorem C3_close_spec_witness :
    findMonth (close_billing_month storeTwoBills ⟨2024, 5, 1⟩ ⟨2024, 7, 2⟩ 7).months ⟨2024, 5, 1⟩
      = some ⟨⟨2024, 5, 1⟩, true, some 7⟩
    ∧ { billInMay with is_paid := true, paid_date := some ⟨2024, 7, 2⟩ }
        ∈ (close_billing_month storeTwoBills ⟨2024, 5, 1⟩ ⟨2024, 7, 2⟩ 7).bills
    ∧ billInJune ∈ (close_billing_month storeTwoBills ⟨2024, 5, 1⟩ ⟨2024, 7, 2⟩ 7).bills :=
  ⟨(C3_close_spec storeTwoBills ⟨2024, 5, 1⟩ ⟨2024, 7, 2⟩ 7).1,
   (C3_close_spec storeTwoBills ⟨2024, 5, 1⟩ ⟨2024, 7, 2⟩ 7).2.1 billInMay (by decide) (by decide),
   (C3_close_spec storeTwoBills ⟨2024, 5, 1⟩ ⟨2024, 7, 2⟩ 7).2.2.1 billInJune (by decide) (by decide)⟩

/-- closeMonthRow is idempotent. -/
theorem closeMonthRow_idem (m : Date) (now : Nat) (r : BillingMonth) :
    closeMonthRow m now (closeMonthRow m now r) = closeMonthRow m now r := by
  obtain ⟨bm, ic, ca⟩ := r
  unfold closeMonthRow
  by_cases h : bm = m <;> simp [h]

/-- closeBillRow is idempotent. -/
theorem closeBillRow_idem (m today : Date) (b : UtilityBill) :
    closeBillRow m today (closeBillRow m today b) = closeBillRow m today b := by
  obtain ⟨i, a, u, c, rd, am, bm, p, pd, n, ct⟩ := b
  unfold closeBillRow
  by_cases h : bm = m <;> simp [h]

/-- C5: closing a month twice (with the same clock readings) yields the same
store as closing it once. -/
theorem C5_close_idempotent :
    ∀ (st : Store) (m today : Date) (now : Nat),
      close_billing_month (close_billing_month st m today now) m today now
        = close_billing_month st m today now := by
  intro st m today now
  obtain ⟨bills, months, apartments, types, settings, nid⟩ := st
  simp only [close_billing_month]
  refine congrArg₂ (fun x y => Store.mk y x apartments types settings nid) ?_ ?_
  · have hcont : containsMonth ((ensure_billing_month months m).map (closeMonthRow m now)) m = true := by
      rw [containsMonth_map (closeMonthRow m now) (closeMonthRow_billing m now)]
      exact containsMonth_ensure months m
    rw [ensure_billing_month_of_contains _ _ hcont]
    rw [List.map_map]
    exact List.map_congr_left fun r _ => closeMonthRow_idem m now r
  · rw [List.map_map]
    exact List.map_congr_left fun b _ => closeBillRow_idem m today b

/-- C2 counterexample: a bill already paid (on 2024-04-25) before close is
unpaid with no paid date after close-then-reopen, so reopen does not restore
pre-close paid state. -/
theorem C2_counterexample :
    findBill storePrepaid.bills 1 = some billPrepaid
    ∧ billPrepaid.is_paid = true
    ∧ billPrepaid.paid_date = some ⟨2024, 4, 25⟩
    ∧ (findBill
        (reopen_billing_month
          (close_billing_month storePrepaid ⟨2024, 5, 1⟩ ⟨2024, 6, 2⟩ 5)
          ⟨2024, 5, 1⟩).bills 1).map (fun b => (b.is_paid, b.paid_date))
      = some (false, none) := by
  decide

/-- C2 amended: reopen after close sets the month status back to Open with
the closing timestamp cleared, and marks every bill of that month unpaid
with its paid date cleared (which equals the pre-close state exactly for
bills that were unpaid with no paid date before the close); bills of other
months are unchanged. -/
theorem C2_reopen_after_close :
    ∀ (st : Store) (m today : Date) (now : Nat),
      findMonth (reopen_billing_month (close_billing_month st m today now) m).months m
        = some ⟨m, false, none⟩
      ∧ (∀ b ∈ st.bills, b.billing_month = m →
          { b with is_paid := false, paid_date := none }
            ∈ (reopen_billing_month (close_billing_month st m today now) m).bills)
      ∧ (∀ b ∈ st.bills, b.billing_month ≠ m →
          b ∈ (reopen_billing_month (close_billing_month st m today now) m).bills)
      ∧ (∀ b ∈ st.bills, b.billing_month = m → b.is_paid = false → b.paid_date = none →
          b ∈ (reopen_billing_month (close_billing_month st m today now) m).bills) := by
  intro st m today now
  have hcont : containsMonth ((ensure_billing_month st.months m).map (closeMonthRow m now)) m = true := by
    rw [containsMonth_map (closeMonthRow m now) (closeMonthRow_billing m now)]
    exact containsMonth_ensure st.months m
  have hens : ensure_billing_month ((ensure_billing_month st.months m).map (closeMonthRow m now)) m
      = (ensure_billing_month st.months m).map (closeMonthRow m now) :=
    ensure_billing_month_of_contains _ _ hcont
  have hmem : ∀ b ∈ st.bills, b.billing_month = m →
      { b with is_paid := false, paid_date := none }
        ∈ (reopen_billing_month (close_billing_month st m today now) m).bills := by
    intro b hb hbm
    have : reopenBillRow m (closeBillRow m today b)
        = { b with is_paid := false, paid_date := none } := by
      simp [closeBillRow, reopenBillRow, hbm]
    rw [← this]
    exact List.mem_map_of_mem _ (List.mem_map_of_mem _ hb)
  refine ⟨?_, hmem, ?_, ?_⟩
  · show findMonth ((ensure_billing_month ((ensure_billing_month st.months m).map
        (closeMonthRow m now)) m).map (reopenMonthRow m)) m = some ⟨m, false, none⟩
    rw [hens, List.map_map]
    exact findMonth_map_update (reopenMonthRow m ∘ closeMonthRow m now) m false none
      (fun r hr => by simp [Function.comp, closeMonthRow, reopenMonthRow, hr])
      (fun r => by simp [Function.comp, reopenMonthRow_billing, closeMonthRow_billing])
      (ensure_billing_month st.months m) (containsMonth_ensure st.months m)
  · intro b hb hbm
    have : reopenBillRow m (closeBillRow m today b) = b := by
      simp [closeBillRow, reopenBillRow, hbm]
    rw [← this]
    exact List.mem_map_of_mem _ (List.mem_map_of_mem _ hb)
  · intro b hb hbm hp hpd
    have hb' := hmem b hb hbm
    have : { b with is_paid := false, paid_date := none } = b := by
      obtain ⟨i, a, u, c, rd, am, bm, p, pd, n, ct⟩ := b
      simp only at hp hpd
      subst hp hpd
      rfl
    rwa [this] at hb'

/-- Witness for the amended C2 on the concrete two-bill store. -/
theorem C2_reopen_after_close_witness :
    findMonth (reopen_billing_month (close_billing_month storeTwoBills ⟨2024, 5, 1⟩ ⟨2024, 7, 2⟩ 7)
        ⟨2024, 5, 1⟩).months ⟨2024, 5, 1⟩ = some ⟨⟨2024, 5, 1⟩, false, none⟩
    ∧ billInMay ∈ (reopen_billing_month
        (close_billing_month storeTwoBills ⟨2024, 5, 1⟩ ⟨2024, 7, 2⟩ 7) ⟨2024, 5, 1⟩).bills
    ∧ billInJune ∈ (reopen_billing_month
        (close_billing_month storeTwoBills ⟨2024, 5, 1⟩ ⟨2024, 7, 2⟩ 7) ⟨2024, 5, 1⟩).bills :=
  ⟨(C2_reopen_after_close storeTwoBills ⟨2024, 5, 1⟩ ⟨2024, 7, 2⟩ 7).1,
   (C2_reopen_after_close storeTwoBills ⟨2024, 5, 1⟩ ⟨2024, 7, 2⟩ 7).2.2.2 billInMay
     (by decide) (by decide) (by decide) (by decide),
   (C2_reopen_after_close storeTwoBills ⟨2024, 5, 1⟩ ⟨2024, 7, 2⟩ 7).2.2.1 billInJune
     (by decide) (by decide)⟩

/-- Rejected handler results leave the store untouched. -/
theorem applyResult_of_not_ok (st : Store) (r : Except String Store)
    (h : exceptOk r = false) : applyResult st r = st := by
  cases r with
  | ok s => simp [exceptOk] at h
  | error e => rfl

/-- C4: a bill sitting in a closed billing month can be neither saved nor
deleted; a new bill cannot be created into a closed month; and an existing
bill cannot be moved into a closed month by a changed received date. All
four attempts are rejected and the store is unchanged. -/
theorem C4_closed_month_guard :
    ∀ (st : Store) (today : Date) (now : Nat) (i : Nat) (b : UtilityBill)
      (utype : String) (cons recv : Date) (amt : Int) (note : Option String),
      (findBill st.bills i = some b → monthIsClosed st.months b.billing_month = true →
        exceptOk (bill_save st today now (some i) utype cons recv amt note) = false
        ∧ applyResult st (bill_save st today now (some i) utype cons recv amt note) = st
        ∧ exceptOk (bill_delete st i) = false
        ∧ applyResult st (bill_delete st i) = st)
      ∧ (monthIsClosed st.months (compute_billing_month recv st.settings.billing_day) = true →
        exceptOk (bill_save st today now none utype cons recv amt note) = false
        ∧ applyResult st (bill_save st today now none utype cons recv amt note) = st)
      ∧ (findBill st.bills i = some b →
        monthIsClosed st.months (compute_billing_month recv st.settings.billing_day) = true →
        b.billing_month ≠ compute_billing_month recv st.settings.billing_day →
        exceptOk (bill_save st today now (some i) utype cons recv amt note) = false
        ∧ applyResult st (bill_save st today now (some i) utype cons recv amt note) = st) := by
  intro st today now i b utype cons recv amt note
  refine ⟨?_, ?_, ?_⟩
  · intro hfind hclosed
    have hsave : exceptOk (bill_save st today now (some i) utype cons recv amt note) = false := by
      unfold bill_save
      split_ifs <;> try rfl
      show exceptOk (bill_save_edit st utype cons recv amt note i) = false
      unfold bill_save_edit
      rw [hfind]
      simp [hclosed, exceptOk]
    have hdel : exceptOk (bill_delete st i) = false := by
      unfold bill_delete
      rw [hfind]
      simp [hclosed, exceptOk]
    exact ⟨hsave, applyResult_of_not_ok st _ hsave, hdel, applyResult_of_not_ok st _ hdel⟩
  · intro hclosed
    have hsave : exceptOk (bill_save st today now none utype cons recv amt note) = false := by
      unfold bill_save
      split_ifs with h1 h2 h3 h4 h5 <;> try rfl
      exact absurd ⟨hclosed, rfl⟩ h5
    exact ⟨hsave, applyResult_of_not_ok st _ hsave⟩
  · intro hfind hclosed hne
    have hsave : exceptOk (bill_save st today now (some i) utype cons recv amt note) = false := by
      unfold bill_save
      split_ifs <;> try rfl
      show exceptOk (bill_save_edit st utype cons recv amt note i) = false
      unfold bill_save_edit
      rw [hfind]
      by_cases hb : monthIsClosed st.months b.billing_month
      · simp [hb, exceptOk]
      · simp [hb, hclosed, hne, exceptOk]
    exact ⟨hsave, applyResult_of_not_ok st _ hsave⟩

/-- Witness for C4 on a concrete store with month 2024-05-01 closed: the
edit and the delete of the bill in it are rejected without effect. -/
theorem C4_closed_month_guard_witness :
    exceptOk (bill_save storeClosedMay ⟨2024, 7, 1⟩ 0 (some 1) "water"
        ⟨2024, 4, 1⟩ ⟨2024, 4, 20⟩ 100 none) = false
    ∧ applyResult storeClosedMay (bill_save storeClosedMay ⟨2024, 7, 1⟩ 0 (some 1) "water"
        ⟨2024, 4, 1⟩ ⟨2024, 4, 20⟩ 100 none) = storeClosedMay
    ∧ exceptOk (bill_delete storeClosedMay 1) = false
    ∧ applyResult storeClosedMay (bill_delete storeClosedMay 1) = storeClosedMay :=
  (C4_closed_month_guard storeClosedMay ⟨2024, 7, 1⟩ 0 1 billInMay "water"
      ⟨2024, 4, 1⟩ ⟨2024, 4, 20⟩ 100 none).1 (by decide) (by decide)

/-- find? skips a prefix on which the predicate is everywhere false. -/
theorem find?_eq_none_of_false {α : Type} (p : α → Bool) (l : List α)
    (h : ∀ x ∈ l, p x = false) : l.find? p = none := by
  rw [List.find?_eq_none]
  intro x hx
  simp [h x hx]

/-- find? commutes with mapping a function that preserves the predicate. -/
theorem find?_map_of_pred {α : Type} (f : α → α) (p : α → Bool)
    (hp : ∀ x, p (f x) = p x) :
    ∀ l : List α, (l.map f).find? p = (l.find? p).map f := by
  intro l
  induction l with
  | nil => rfl
  | cons x t ih =>
    by_cases hx : p x = true
    · rw [List.map_cons, List.find?_cons_of_pos _ ((hp x).trans hx),
        List.find?_cons_of_pos _ hx]
      rfl
    · have hfx : ¬ p (f x) = true := by
        rw [hp x]
        exact hx
      rw [List.map_cons, List.find?_cons_of_neg _ hfx, List.find?_cons_of_neg _ hx, ih]

/-- C9: every successful bill_save - creation or edit - leaves the saved
bill unpaid with no paid date, whatever its previous paid state was. -/
theorem C9_save_resets_paid :
    ∀ (st : Store) (today : Date) (now : Nat) (bid : Option Nat) (utype : String)
      (cons recv : Date) (amt : Int) (note : Option String) (st' : Store),
      billIdsFresh st →
      bill_save st today now bid utype cons recv amt note = Except.ok st' →
      ∃ b, findBill st'.bills (savedId st bid) = some b
        ∧ b.is_paid = false ∧ b.paid_date = none := by
  intro st today now bid utype cons recv amt note st' hwf hok
  unfold bill_save at hok
  split_ifs at hok <;> try exact Except.noConfusion hok
  cases bid with
  | some i =>
    replace hok : bill_save_edit st utype cons recv amt note i = Except.ok st' := hok
    unfold bill_save_edit at hok
    split at hok
    next hfind => exact Except.noConfusion hok
    next b hfind =>
      split_ifs at hok <;> try exact Except.noConfusion hok
      injection hok with h
      subst h
      have hb : b.id = i := by
        have hp := List.find?_some hfind
        simpa using hp
      refine ⟨saveBillRow utype cons recv amt
        (compute_billing_month recv st.settings.billing_day) note b, ?_, rfl, rfl⟩
      show findBill (st.bills.map _) (savedId st (some i)) = _
      simp only [savedId]
      unfold findBill
      rw [find?_map_of_pred _ _ (fun x => by
        by_cases h : x.id = i <;> simp [saveBillRow, h])]
      unfold findBill at hfind
      rw [hfind]
      simp [hb]
  | none =>
    replace hok : bill_save_create st now utype cons recv amt note = Except.ok st' := hok
    unfold bill_save_create at hok
    injection hok with h
    subst h
    refine ⟨newBillRow st now utype cons recv amt note, ?_, rfl, rfl⟩
    show findBill (st.bills ++ [_]) (savedId st none) = _
    simp only [savedId]
    unfold findBill
    rw [List.find?_append, find?_eq_none_of_false _ st.bills (fun x hx => by
      have := hwf x hx
      simp only [decide_eq_false_iff_not]
      omega)]
    simp [newBillRow]

/-- Witness for C9: a concrete successful creation on an empty store yields
a bill that is unpaid with no paid date. -/
theorem C9_save_resets_paid_witness :
    ∃ b, findBill (applyResult storeOpenJune (bill_save storeOpenJune ⟨2024, 6, 10⟩ 0 none
        "electricity" ⟨2024, 6, 1⟩ ⟨2024, 6, 5⟩ 100 none)).bills
      (savedId storeOpenJune none) = some b ∧ b.is_paid = false ∧ b.paid_date = none :=
  C9_save_resets_paid storeOpenJune ⟨2024, 6, 10⟩ 0 none "electricity" ⟨2024, 6, 1⟩
    ⟨2024, 6, 5⟩ 100 none
    (applyResult storeOpenJune (bill_save storeOpenJune ⟨2024, 6, 10⟩ 0 none
      "electricity" ⟨2024, 6, 1⟩ ⟨2024, 6, 5⟩ 100 none))
    (fun b hb => absurd hb (List.not_mem_nil b)) (by rfl)

/-- After deactivating apartment id `i`, no apartment with id `i` survives
the active-apartments filter. -/
theorem deactivated_not_in_active (i : Nat) (l : List Apartment) :
    ∀ x ∈ (l.map (fun a => if a.id = i then { a with is_active := false } else a)).filter
      (·.is_active), x.id ≠ i := by
  intro x hx
  rw [List.mem_filter] at hx
  obtain ⟨hmem, hact⟩ := hx
  rw [List.mem_map] at hmem
  obtain ⟨a, _, rfl⟩ := hmem
  by_cases h : a.id = i
  · simp [h] at hact
  · simp only [if_neg h]
    exact h

/-- C8: deactivating the only remaining active apartment is rejected with no
effect, while deactivating an apartment while at least two are active
succeeds and removes its id from the active-apartment listing. -/
theorem C8_deactivate_guard :
    ∀ (st : Store) (i : Nat) (a : Apartment),
      st.apartments.find? (fun x => decide (x.id = i)) = some a →
      ((a.is_active = true → (st.apartments.filter (·.is_active)).length = 1 →
        exceptOk (apartment_deactivate st i) = false
        ∧ applyResult st (apartment_deactivate st i) = st)
      ∧ (2 ≤ (st.apartments.filter (·.is_active)).length →
        ∃ st', apartment_deactivate st i = Except.ok st'
          ∧ ∀ x ∈ st'.apartments.filter (·.is_active), x.id ≠ i)) := by
  intro st i a hfind
  constructor
  · intro hact hcount
    have hrej : exceptOk (apartment_deactivate st i) = false := by
      unfold apartment_deactivate
      split
      · rfl
      next a' hfind' =>
        rw [hfind] at hfind'
        injection hfind' with ha
        subst ha
        rw [if_pos ⟨hact, by omega⟩]
        rfl
    exact ⟨hrej, applyResult_of_not_ok st _ hrej⟩
  · intro hcount
    unfold apartment_deactivate
    split
    next hf =>
      rw [hf] at hfind
      exact Option.noConfusion hfind
    next a' hfind' =>
      rw [if_neg (fun h => by
        have := h.2
        omega)]
      exact ⟨_, rfl, deactivated_not_in_active i st.apartments⟩

/-- Witness for C8: rejection on a store whose only active apartment is the
target, success and exclusion on a store with two active apartments. -/
theorem C8_deactivate_guard_witness :
    (exceptOk (apartment_deactivate storeOneActive 1) = false
      ∧ applyResult storeOneActive (apartment_deactivate storeOneActive 1) = storeOneActive)
    ∧ ∃ st', apartment_deactivate storeTwoActive 2 = Except.ok st'
        ∧ ∀ x ∈ st'.apartments.filter (·.is_active), x.id ≠ 2 :=
  ⟨(C8_deactivate_guard storeOneActive 1 ⟨1, "A", true⟩ (by decide)).1 rfl (by decide),
   (C8_deactivate_guard storeTwoActive 2 ⟨2, "B", true⟩ (by decide)).2 (by decide)⟩

/-- dateLe is reflexive. -/
theorem dateLe_refl (a : Date) : dateLe a a = true := by
  simp [dateLe]

/-- dateLe is transitive. -/
theorem dateLe_trans {a b c : Date} (h1 : dateLe a b = true) (h2 : dateLe b c = true) :
    dateLe a c = true := by
  simp only [dateLe, decide_eq_true_eq] at h1 h2 ⊢
  omega

/-- dateLe is total. -/
theorem dateLe_total (a b : Date) : dateLe a b = true ∨ dateLe b a = true := by
  simp only [dateLe, decide_eq_true_eq]
  omega

/-- minDate? returns none exactly on the empty list. -/
theorem minDate?_eq_none_iff (l : List Date) : minDate? l = none ↔ l = [] := by
  cases l with
  | nil => simp [minDate?]
  | cons d ds =>
    simp only [minDate?]
    split
    next => simp
    next m heq =>
      split <;> simp

/-- minDate? of a nonempty list picks an element of the list. -/
theorem minDate?_mem : ∀ (l : List Date) (d : Date), minDate? l = some d → d ∈ l := by
  intro l
  induction l with
  | nil =>
    intro d h
    exact Option.noConfusion h
  | cons x t ih =>
    intro d h
    simp only [minDate?] at h
    split at h
    next heq =>
      injection h with h
      subst h
      exact List.mem_cons_self x t
    next m heq =>
      split at h
      · injection h with h
        subst h
        exact List.mem_cons_self x t
      · injection h with h
        subst h
        exact List.mem_cons_of_mem x (ih _ heq)

/-- minDate? is a lower bound for every element of the list. -/
theorem minDate?_le : ∀ (l : List Date) (d : Date), minDate? l = some d →
    ∀ x ∈ l, dateLe d x = true := by
  intro l
  induction l with
  | nil =>
    intro d h
    exact Option.noConfusion h
  | cons y t ih =>
    intro d h x hx
    simp only [minDate?] at h
    split at h
    next heq =>
      injection h with h
      subst h
      have ht : t = [] := (minDate?_eq_none_iff t).mp heq
      subst ht
      rcases List.mem_cons.mp hx with rfl | hxt
      · exact dateLe_refl _
      · exact absurd hxt (List.not_mem_nil x)
    next m heq =>
      split at h
      next hle =>
        injection h with h
        subst h
        rcases List.mem_cons.mp hx with rfl | hxt
        · exact dateLe_refl _
        · exact dateLe_trans hle (ih _ heq x hxt)
      next hnle =>
        injection h with h
        subst h
        rcases List.mem_cons.mp hx with rfl | hxt
        · rcases dateLe_total x m with hy | hy
          · exact absurd hy hnle
          · exact hy
        · exact ih _ heq x hxt

/-- Membership in the aggregate query's WHERE clause. -/
theorem mem_matchingBills (st : Store) (code : String) (cm : Date) (b : UtilityBill) :
    b ∈ matchingBills st code cm ↔
      b ∈ st.bills ∧ b.utility_type = code ∧ b.consumption_month = cm := by
  unfold matchingBills
  rw [List.mem_filter]
  simp

/-- The matching-bill list is nonempty exactly when some bill of that type
and consumption month exists. -/
theorem matchingBills_ne_nil_iff (st : Store) (code : String) (cm : Date) :
    matchingBills st code cm ≠ [] ↔
      ∃ b ∈ st.bills, b.utility_type = code ∧ b.consumption_month = cm := by
  constructor
  · intro h
    obtain ⟨b, hb⟩ := List.exists_mem_of_ne_nil _ h
    rw [mem_matchingBills] at hb
    exact ⟨b, hb.1, hb.2⟩
  · rintro ⟨b, hb, h1, h2⟩ hnil
    have hmem : b ∈ matchingBills st code cm :=
      (mem_matchingBills st code cm b).mpr ⟨hb, h1, h2⟩
    rw [hnil] at hmem
    exact absurd hmem (List.not_mem_nil b)

/-- The paid-count of the matching bills is nonzero exactly when some
matching bill is paid. -/
theorem matchingBills_countP_iff (st : Store) (code : String) (cm : Date) :
    (matchingBills st code cm).countP (·.is_paid) ≠ 0 ↔
      ∃ b ∈ st.bills, b.utility_type = code ∧ b.consumption_month = cm
        ∧ b.is_paid = true := by
  rw [Ne, List.countP_eq_zero]
  push_neg
  constructor
  · rintro ⟨b, hb, hp⟩
    rw [mem_matchingBills] at hb
    exact ⟨b, hb.1, hb.2.1, hb.2.2, by simpa using hp⟩
  · rintro ⟨b, hb, h1, h2, hp⟩
    exact ⟨b, (mem_matchingBills st code cm b).mpr ⟨hb, h1, h2⟩, by simp [hp]⟩

/-- Each utility type contributes exactly 12 rows to the report. -/
theorem length_flatMap_rows (st : Store) (year : Int) :
    ∀ l : List UtilityType,
      (l.flatMap (fun u => (List.range 12).map
        (fun j => expectedRowFor st u year (j + 1)))).length = 12 * l.length := by
  intro l
  induction l with
  | nil => rfl
  | cons u t ih =>
    simp only [List.flatMap_cons, List.length_append, List.length_map,
      List.length_range, ih, List.length_cons]
    omega

/-- C7: the report for a year has 12 rows per active utility type; in every
row, received holds iff a bill of that type and consumption month exists,
charged holds iff such a bill is paid, and the first-received field is the
earliest received date of such bills (absent exactly when none exist); and
every (active type, month 1..12) pair has a row. -/
theorem C7_expected_rows_spec :
    ∀ (st : Store) (year : Int),
      (expected_rows st year).length = 12 * (st.utility_types.filter (·.is_active)).length
      ∧ (∀ r ∈ expected_rows st year,
          (r.received = true ↔ ∃ b ∈ st.bills,
            b.utility_type = r.utility_type ∧ b.consumption_month = r.consumption_month)
          ∧ (r.charged = true ↔ ∃ b ∈ st.bills,
            b.utility_type = r.utility_type ∧ b.consumption_month = r.consumption_month
              ∧ b.is_paid = true)
          ∧ (r.first_received_date = none ↔
              ¬ ∃ b ∈ st.bills, b.utility_type = r.utility_type
                ∧ b.consumption_month = r.consumption_month)
          ∧ (∀ d, r.first_received_date = some d →
              (∃ b ∈ st.bills, b.utility_type = r.utility_type
                ∧ b.consumption_month = r.consumption_month ∧ b.received_date = d)
              ∧ ∀ b ∈ st.bills, b.utility_type = r.utility_type →
                  b.consumption_month = r.consumption_month →
                  dateLe d b.received_date = true))
      ∧ (∀ u ∈ st.utility_types, u.is_active = true → ∀ mo : Nat, 1 ≤ mo → mo ≤ 12 →
          ∃ r ∈ expected_rows st year, r.utility_type = u.code
            ∧ r.consumption_month = ⟨year, (mo : Int), 1⟩) := by
  intro st year
  refine ⟨?_, ?_, ?_⟩
  · unfold expected_rows
    rw [length_flatMap_rows, List.length_insertionSort]
  · intro r hr
    unfold expected_rows at hr
    rw [List.mem_flatMap] at hr
    obtain ⟨u, hu, hrm⟩ := hr
    rw [List.mem_map] at hrm
    obtain ⟨j, hj, rfl⟩ := hrm
    simp only [expectedRowFor]
    refine ⟨?_, ?_, ?_, ?_⟩
    · rw [decide_eq_true_eq, Ne, List.length_eq_zero]
      exact matchingBills_ne_nil_iff st u.code _
    · rw [decide_eq_true_eq]
      exact matchingBills_countP_iff st u.code _
    · rw [minDate?_eq_none_iff, List.map_eq_nil_iff]
      constructor
      · intro hnil hex
        exact (matchingBills_ne_nil_iff st u.code _).mpr hex hnil
      · intro hne
        by_contra h
        exact hne ((matchingBills_ne_nil_iff st u.code _).mp h)
    · intro d hd
      constructor
      · have hdm := minDate?_mem _ _ hd
        rw [List.mem_map] at hdm
        obtain ⟨b, hb, hbd⟩ := hdm
        rw [mem_matchingBills] at hb
        exact ⟨b, hb.1, hb.2.1, hb.2.2, hbd⟩
      · intro b hb h1 h2
        exact minDate?_le _ _ hd b.received_date
          (List.mem_map_of_mem _ ((mem_matchingBills st u.code _ b).mpr ⟨hb, h1, h2⟩))
  · intro u hu hact mo h1 h2
    refine ⟨expectedRowFor st u year mo, ?_, rfl, rfl⟩
    unfold expected_rows
    rw [List.mem_flatMap]
    refine ⟨u, ?_, ?_⟩
    · rw [List.mem_insertionSort, List.mem_filter]
      exact ⟨hu, hact⟩
    · rw [List.mem_map]
      exact ⟨mo - 1, by
        rw [List.mem_range]
        omega, by rw [Nat.sub_add_cancel h1]⟩

/-- Witness for C7 on the spec's one-type one-June-bill store: the report
for 2024 has a row for (electricity, 2024-06-01). -/
theorem C7_expected_rows_spec_witness :
    ∃ r ∈ expected_rows storeJuneBill 2024, r.utility_type = "electricity"
      ∧ r.consumption_month = ⟨2024, 6, 1⟩ :=
  (C7_expected_rows_spec storeJuneBill 2024).2.2 ⟨1, "electricity", "Struja", true⟩
    (by decide) rfl 6 (by decide) (by decide)

end GrayShop
